import Mathlib

/-!
Verification development for the `agentic_lab` trader package.

The functions below are shallow embeddings, over `ℚ`, of
`src/agentic_lab/agents/trader/scoring.py` (class `ScoreProvider`) and
`src/agentic_lab/agents/trader/stock_analysis/analyzer.py`.  Pandas data
frames are embedded as lists of rows with optional fields; "undefined"
cells (NaN produced by `diff`/`rolling` warm-up) are embedded as `none` in
`Option ℚ` lists.  Python runtime type checks (`TypeError`/`ValueError`
raised on non-numeric data or non-positive windows) are excluded by the
Lean types and by explicit positivity hypotheses.
-/

namespace AgenticLab

/-- Row of the indicator table: the columns read by `ScoreProvider`.  A
`none` field embeds a column missing from the frame (`row.get` returning
`None`). -/
structure IndicatorRow where
  rsi : Option ℚ := none
  close : Option ℚ := none
  sma_20 : Option ℚ := none
  macd : Option ℚ := none
  macd_signal : Option ℚ := none
deriving DecidableEq

/-- Names of the three technical sub-score components. -/
inductive CompName
  | RSI
  | Price_vs_SMA
  | MACD
deriving DecidableEq

/-- Translation of `ScoreProvider._rsi_score_normalized`. -/
def rsi_score_normalized (rsi : ℚ) : ℚ :=
  if rsi ≤ 25 then 0.9
  else if rsi ≤ 30 then 0.75
  else if 75 ≤ rsi then 0.15
  else if 70 ≤ rsi then 0.25
  else 0.75 - (rsi - 30) * 0.5 / 40

/-- Weight table used by `technical_score` (`weights` dict; the
`weights.get(name, 1.0)` default is unreachable for these three names). -/
def scoreWeight : CompName → ℚ
  | CompName.RSI => 0.4
  | CompName.Price_vs_SMA => 0.4
  | CompName.MACD => 0.2

/-- Component list built by `ScoreProvider.technical_score` from the last
row of the frame (`score_components` in the source). -/
def score_components (row : IndicatorRow) : List (CompName × ℚ) :=
  (match row.rsi with
   | some r => [(CompName.RSI, rsi_score_normalized r)]
   | none => []) ++
  (match row.close, row.sma_20 with
   | some price, some sma_20 =>
     [(CompName.Price_vs_SMA, (min (max (price / sma_20) 0.7) 1.3 - 0.7) / 0.6)]
   | _, _ => []) ++
  (match row.macd, row.macd_signal with
   | some macd, some macd_signal =>
     [(CompName.MACD, if macd_signal < macd then (1 : ℚ) else 0.3)]
   | _, _ => [])

/-- Translation of `ScoreProvider.technical_score`.  `none` embeds
`df is None`; an empty row list embeds `df.empty`. -/
def technical_score (df : Option (List IndicatorRow)) : ℚ :=
  match df with
  | none => 0.5
  | some rows =>
    match rows.getLast? with
    | none => 0.5
    | some row =>
      let comps := score_components row
      if comps.isEmpty then 0.5
      else
        let total_weight := (comps.map (fun c => scoreWeight c.1)).sum
        let weighted_sum := (comps.map (fun c => scoreWeight c.1 * c.2)).sum
        let final_score := if 0 < total_weight then weighted_sum / total_weight else 0.5
        max 0 (min 1 final_score)

/-- Translation of `ScoreProvider.momentum_score`: percent change between
`df.iloc[-1]` and `df.iloc[-min(5, len(df))]`, mapped through
`0.5 + pct_change * 3.33` and clamped to `[0, 1]`. -/
def momentum_score (df : Option (List IndicatorRow)) : ℚ :=
  match df with
  | none => 0.5
  | some rows =>
    if rows.length < 2 then 0.5
    else
      let recent_price := rows.getLast?.bind IndicatorRow.close
      let older_price := (rows[rows.length - min 5 rows.length]?).bind IndicatorRow.close
      match recent_price, older_price with
      | some recent, some older =>
        let pct_change := (recent - older) / older
        let momentum := 0.5 + pct_change * 3.33
        max 0 (min 1 momentum)
      | _, _ => 0.5

/-- Web search result as consumed by `sentiment_score` (only the fields it
reads). -/
structure SearchResult where
  title : String := ""
  snippet : String := ""

/-- Translation of `ScoreProvider.sentiment_score` together with
`_gpt_sentiment_analysis`.  `gpt_result` embeds the outcome of the OpenAI
call chain: `none` stands for any raised exception (missing API key,
missing package, API failure, unparsable reply), which the caller catches
and maps to the neutral `0.5`; `some score` is the parsed 0-100 reply,
normalized by `max(0, min(1, score / 100))`. -/
def sentiment_score (gpt_result : Option ℚ) (search_results : List SearchResult) : ℚ :=
  if search_results.isEmpty then 0.5
  else
    match gpt_result with
    | none => 0.5
    | some score =>
      let texts := (search_results.take 10).filter
        (fun r => (r.title != "") || (r.snippet != ""))
      if texts.isEmpty then 0.5
      else max 0 (min 1 (score / 100))

/-- Weight record for `composite_score` (the `weights` dict). -/
structure Weights where
  technical : ℚ
  momentum : ℚ
  sentiment : ℚ

/-- Translation of `ScoreProvider.composite_score`. -/
def composite_score (technical momentum sentiment : ℚ)
    (risk_adjustment : ℚ := 1) : ℚ :=
  if (0.01 : ℚ) < |sentiment - 0.5| then
    let weights : Weights := ⟨0.4, 0.3, 0.3⟩
    let weights :=
      if technical < 0.5 ∧ momentum < 0.4 then
        { weights with technical := 0.45, momentum := 0.35, sentiment := 0.20 }
      else weights
    let composite :=
      weights.technical * technical + weights.momentum * momentum +
        weights.sentiment * sentiment
    let adjusted := composite * risk_adjustment
    max 0 (min 1 adjusted)
  else
    let composite := (0.6 : ℚ) * technical + 0.4 * momentum
    let adjusted := composite * risk_adjustment
    max 0 (min 1 adjusted)

/-- Trading actions returned by `generate_trading_signal`. -/
inductive Signal
  | BUY
  | SELL
  | HOLD
deriving DecidableEq

/-- Risk tolerance profiles.  The source reads a lowercased string from the
config and treats any string other than "conservative" and "aggressive" as
moderate. -/
inductive RiskTolerance
  | conservative
  | moderate
  | aggressive
deriving DecidableEq

/-- Buy threshold chosen by `generate_trading_signal` per risk tolerance. -/
def buy_threshold : RiskTolerance → ℚ
  | RiskTolerance.conservative => 0.60
  | RiskTolerance.aggressive => 0.50
  | RiskTolerance.moderate => 0.55

/-- Sell threshold chosen by `generate_trading_signal` per risk tolerance. -/
def sell_threshold : RiskTolerance → ℚ
  | RiskTolerance.conservative => 0.40
  | RiskTolerance.aggressive => 0.40
  | RiskTolerance.moderate => 0.45

/-- Translation of `ScoreProvider.generate_trading_signal`, returning the
`(signal, confidence)` pair (the human-readable `reasoning` string is not
modelled).  `technical_score` is optional because the source guards it with
`if technical_score is not None`. -/
def generate_trading_signal (risk_tolerance : RiskTolerance)
    (composite_score : ℚ) (technical_score : Option ℚ) : Signal × ℚ :=
  let bt := buy_threshold risk_tolerance
  let st := sell_threshold risk_tolerance
  let confidence := |composite_score - 0.5| * 2
  let signal : Signal :=
    if bt ≤ composite_score then Signal.BUY
    else if composite_score ≤ st then Signal.SELL
    else Signal.HOLD
  let confidence :=
    match technical_score with
    | none => confidence
    | some t =>
      if (signal = Signal.BUY ∧ 0.6 < t) ∨ (signal = Signal.SELL ∧ t < 0.4) ∨
          signal = Signal.HOLD then
        min (confidence * 1.2) 1
      else confidence * 0.8
  (signal, confidence)

/-- Risk multiplier table used by `calculate_all_scores`. -/
def risk_multiplier : RiskTolerance → ℚ
  | RiskTolerance.conservative => 0.85
  | RiskTolerance.moderate => 1.0
  | RiskTolerance.aggressive => 1.15

/-- Translation of `ScoreProvider.calculate_all_scores`. -/
def calculate_all_scores (risk_tolerance : RiskTolerance)
    (df : Option (List IndicatorRow)) (gpt_result : Option ℚ)
    (search_results : List SearchResult) : ℚ × ℚ × ℚ × ℚ :=
  let technical := technical_score df
  let momentum := momentum_score df
  let sentiment := sentiment_score gpt_result search_results
  let composite :=
    composite_score technical momentum sentiment (risk_multiplier risk_tolerance)
  (technical, momentum, sentiment, composite)

/-! ### Embedding of the technical-indicator library (`analyzer.py`)

Indicator outputs are lists of `Option ℚ` aligned 1:1 with the input
positions; `none` embeds the NaN entries pandas produces during rolling
warm-up.  Each function's `TypeError`/`ValueError` validation of
non-numeric data and non-positive windows is excluded by the Lean types
and by explicit positivity hypotheses in the theorems. -/

/-- Trailing window of length `window` ending at index `i` inclusive, as
enumerated by `pandas.Series.rolling(window)`; meaningful when
`window ≤ i + 1` and `i < data.length`. -/
def windowSlice (data : List ℚ) (window i : Nat) : List ℚ :=
  (data.drop (i + 1 - window)).take window

/-- Translation of `calculate_moving_average`:
`pd.Series(data).rolling(window=window).mean().tolist()`. -/
def calculate_moving_average (data : List ℚ) (window : Nat) : List (Option ℚ) :=
  (List.range data.length).map (fun i =>
    if window ≤ i + 1 then some ((windowSlice data window i).sum / window)
    else none)

/-- Translation of `series.diff()`: position 0 is NaN, position `i ≥ 1`
holds `data[i] - data[i-1]`. -/
def seriesDiff (data : List ℚ) : List (Option ℚ) :=
  (List.range data.length).map (fun i =>
    match i with
    | 0 => none
    | j + 1 => some (data.getD (j + 1) 0 - data.getD j 0))

/-- Rolling mean over a series that may contain NaN entries
(`rolling(window).mean()` with the default `min_periods = window`): the
value at `i` is defined only when the window is full and every entry in it
is defined. -/
def rollingMeanOpt (xs : List (Option ℚ)) (window : Nat) : List (Option ℚ) :=
  (List.range xs.length).map (fun i =>
    if window ≤ i + 1 then
      let w := (xs.drop (i + 1 - window)).take window
      if w.all Option.isSome then some ((w.filterMap id).sum / window) else none
    else none)

/-- Per-period gains: `delta.clip(lower=0)`. -/
def gainsOf (delta : List (Option ℚ)) : List (Option ℚ) :=
  delta.map (Option.map (fun d => max d 0))

/-- Per-period losses: `-delta.clip(upper=0)`. -/
def lossesOf (delta : List (Option ℚ)) : List (Option ℚ) :=
  delta.map (Option.map (fun d => max (-d) 0))

/-- Translation of `calculate_rsi`: returns `[]` when the input is shorter
than the window, else `100 - 100/(1 + avg_gain/avg_loss)` with the two
`where` masks: `avg_loss = 0 ∧ avg_gain > 0 ↦ 100` and
`avg_gain = 0 ∧ avg_loss = 0 ↦ 50`. -/
def calculate_rsi (data : List ℚ) (window : Nat) : List (Option ℚ) :=
  if data.length < window then []
  else
    let delta := seriesDiff data
    let avg_gain := rollingMeanOpt (gainsOf delta) window
    let avg_loss := rollingMeanOpt (lossesOf delta) window
    (List.range data.length).map (fun i =>
      match avg_gain.getD i none, avg_loss.getD i none with
      | some g, some l =>
        if l = 0 ∧ 0 < g then some 100
        else if g = 0 ∧ l = 0 then some 50
        else some (100 - 100 / (1 + g / l))
      | _, _ => none)

/-- Rolling sample standard deviation (`rolling(window).std()`, pandas
default `ddof = 1`), parameterized by the square-root function: the
standard deviation of a rational window is irrational in general, and
every property verified below (band symmetry) holds for any square root,
so `sqrtFn` abstracts exactly the `sqrt` applied to the sample variance.
pandas yields NaN for every position when `window = 1` (division by
`ddof` zero), hence the `2 ≤ window` guard. -/
def rollingSampleStd (sqrtFn : ℚ → ℚ) (data : List ℚ) (window : Nat) :
    List (Option ℚ) :=
  (List.range data.length).map (fun i =>
    if window ≤ i + 1 ∧ 2 ≤ window then
      let w := windowSlice data window i
      let mean := w.sum / window
      some (sqrtFn ((w.map (fun x => (x - mean) ^ 2)).sum / ((window : ℚ) - 1)))
    else none)

/-- Pointwise arithmetic on two aligned series with NaN propagation
(`series + series`, `series - series` in pandas). -/
def map2Opt (f : ℚ → ℚ → ℚ) : List (Option ℚ) → List (Option ℚ) → List (Option ℚ) :=
  List.zipWith (fun a b =>
    match a, b with
    | some x, some y => some (f x y)
    | _, _ => none)

/-- Translation of `calculate_bollinger_bands`, returning
(upper band, middle band, lower band). -/
def calculate_bollinger_bands (sqrtFn : ℚ → ℚ) (data : List ℚ) (window : Nat)
    (num_std_dev : ℚ) :
    List (Option ℚ) × List (Option ℚ) × List (Option ℚ) :=
  let middle_band := calculate_moving_average data window
  let std_dev := rollingSampleStd sqrtFn data window
  let upper_band := map2Opt (fun m s => m + s * num_std_dev) middle_band std_dev
  let lower_band := map2Opt (fun m s => m - s * num_std_dev) middle_band std_dev
  (upper_band, middle_band, lower_band)

/-- Minimum of a nonempty list of rationals (the `[]` case is never reached
on the nonempty full windows it is applied to). -/
def listMin : List ℚ → ℚ
  | [] => 0
  | [x] => x
  | x :: y :: t => min x (listMin (y :: t))

/-- Maximum of a nonempty list of rationals. -/
def listMax : List ℚ → ℚ
  | [] => 0
  | [x] => x
  | x :: y :: t => max x (listMax (y :: t))

/-- Translation of `rolling(window).min()`. -/
def rollingMin (data : List ℚ) (window : Nat) : List (Option ℚ) :=
  (List.range data.length).map (fun i =>
    if window ≤ i + 1 then some (listMin (windowSlice data window i)) else none)

/-- Translation of `rolling(window).max()`. -/
def rollingMax (data : List ℚ) (window : Nat) : List (Option ℚ) :=
  (List.range data.length).map (fun i =>
    if window ≤ i + 1 then some (listMax (windowSlice data window i)) else none)

/-- Window used by `rolling(k, min_periods=1)`: the trailing up-to-`k`
entries ending at `i`. -/
def partialWindow (xs : List (Option ℚ)) (window i : Nat) : List ℚ :=
  ((xs.take (i + 1)).drop (i + 1 - window)).filterMap id

/-- Rolling mean with `min_periods = 1`: the mean of the defined entries in
the trailing window, NaN only when none of them is defined. -/
def rollingMeanMinP1 (xs : List (Option ℚ)) (window : Nat) : List (Option ℚ) :=
  (List.range xs.length).map (fun i =>
    let w := partialWindow xs window i
    if w.isEmpty then none else some (w.sum / w.length))

/-- Translation of `calculate_stochastic_oscillator`, returning
(%K, %D).  `safe_range = price_range.replace(0, nan)` followed by
`where(price_range != 0, 0.0)` makes %K exactly 0 on zero-range windows;
undefined (NaN) rolling extrema propagate to undefined %K. -/
def calculate_stochastic_oscillator (high low close : List ℚ)
    (window : Nat) (k_smoothing : Nat) :
    List (Option ℚ) × List (Option ℚ) :=
  let lowest_low := rollingMin low window
  let highest_high := rollingMax high window
  let percent_k := (List.range close.length).map (fun i =>
    match highest_high.getD i none, lowest_low.getD i none with
    | some hh, some ll =>
      if hh - ll = 0 then some 0
      else some (100 * (close.getD i 0 - ll) / (hh - ll))
    | _, _ => none)
  let percent_d := rollingMeanMinP1 percent_k k_smoothing
  (percent_k, percent_d)

/-- Value of the OBV accumulator at position `i` (the loop of
`calculate_on_balance_volume`, which starts from `obv[0] = 0`). -/
def obvAux (close volume : List ℚ) : Nat → ℚ
  | 0 => 0
  | i + 1 =>
    if close.getD i 0 < close.getD (i + 1) 0 then
      obvAux close volume i + volume.getD (i + 1) 0
    else if close.getD (i + 1) 0 < close.getD i 0 then
      obvAux close volume i - volume.getD (i + 1) 0
    else obvAux close volume i

/-- Translation of `calculate_on_balance_volume`. -/
def calculate_on_balance_volume (close volume : List ℚ) : List ℚ :=
  (List.range close.length).map (obvAux close volume)

/-! ### Indexing helper lemmas -/

lemma getElem?_rangeMap {α : Type} (f : Nat → α) (n i : Nat) :
    ((List.range n).map f)[i]? = if i < n then some (f i) else none := by
  by_cases h : i < n
  · rw [if_pos h, List.getElem?_map, List.getElem?_range h]
    rfl
  · rw [if_neg h]
    exact List.getElem?_eq_none (by simpa using Nat.le_of_not_lt h)

lemma getD_rangeMap {α : Type} (f : Nat → α) (n i : Nat) (d : α) (h : i < n) :
    ((List.range n).map f).getD i d = f i := by
  rw [List.getD_eq_getElem?_getD, getElem?_rangeMap, if_pos h]
  rfl

lemma getD_len_le {α : Type} (l : List α) (i : Nat) (d : α) (h : l.length ≤ i) :
    l.getD i d = d := by
  rw [List.getD_eq_getElem?_getD, List.getElem?_eq_none h]
  rfl

lemma getD_mem {l : List ℚ} {i : Nat} (h : i < l.length) (d : ℚ) : l.getD i d ∈ l := by
  rw [List.getD_eq_getElem?_getD, List.getElem?_eq_getElem h]
  exact List.getElem_mem h

lemma windowSlice_length (data : List ℚ) (window i : Nat)
    (h1 : window ≤ i + 1) (h2 : i < data.length) :
    (windowSlice data window i).length = window := by
  unfold windowSlice
  rw [List.length_take, List.length_drop]
  omega

lemma windowSlice_getElem? (data : List ℚ) (window i j : Nat) (hj : j < window) :
    (windowSlice data window i)[j]? = data[i + 1 - window + j]? := by
  unfold windowSlice
  rw [List.getElem?_take, if_pos hj, List.getElem?_drop]

lemma windowSlice_getD (data : List ℚ) (window i j : Nat) (hj : j < window)
    (hs : i + 1 - window + j < data.length) :
    (windowSlice data window i).getD j 0 = data.getD (i + 1 - window + j) 0 := by
  rw [List.getD_eq_getElem?_getD, List.getD_eq_getElem?_getD,
    windowSlice_getElem? data window i j hj]

lemma self_mem_windowSlice (data : List ℚ) (window i : Nat)
    (h0 : 0 < window) (h1 : window ≤ i + 1) (h2 : i < data.length) :
    data.getD i 0 ∈ windowSlice data window i := by
  have hidx : (windowSlice data window i)[window - 1]? = data[i]? := by
    rw [windowSlice_getElem? data window i (window - 1) (by omega),
      show i + 1 - window + (window - 1) = i by omega]
  have hD : data.getD i 0 = data[i] := by
    rw [List.getD_eq_getElem?_getD, List.getElem?_eq_getElem h2]
    rfl
  rw [hD]
  exact List.mem_iff_getElem?.mpr ⟨window - 1, by rw [hidx, List.getElem?_eq_getElem h2]⟩

lemma sum_take_getD (l : List ℚ) : ∀ w : Nat, w ≤ l.length →
    (l.take w).sum = ∑ j ∈ Finset.range w, l.getD j 0 := by
  induction l with
  | nil =>
    intro w hw
    rw [Nat.le_zero.mp hw]
    simp
  | cons a t ih =>
    intro w hw
    cases w with
    | zero => simp
    | succ k =>
      rw [List.take_succ_cons, List.sum_cons, ih k (by simpa using hw),
        Finset.sum_range_succ', add_comm]
      simp [List.getD_cons_succ, List.getD_cons_zero]

lemma getD_drop (l : List ℚ) (a j : Nat) : (l.drop a).getD j 0 = l.getD (a + j) 0 := by
  rw [List.getD_eq_getElem?_getD, List.getD_eq_getElem?_getD, List.getElem?_drop]

lemma windowSlice_sum (data : List ℚ) (window i : Nat)
    (h1 : window ≤ i + 1) (h2 : i < data.length) :
    (windowSlice data window i).sum =
      ∑ j ∈ Finset.range window, data.getD (i + 1 - window + j) 0 := by
  unfold windowSlice
  rw [sum_take_getD _ window (by rw [List.length_drop]; omega)]
  exact Finset.sum_congr rfl fun j _ => getD_drop data (i + 1 - window) j

/-! ### Theorems about the scoring module -/

/-- Both clamp bounds, as produced by the `max(0.0, min(1.0, x))` pattern. -/
lemma clamp01_mem (x : ℚ) : 0 ≤ max 0 (min 1 x) ∧ max 0 (min 1 x) ≤ 1 :=
  ⟨le_max_left 0 _, max_le (by norm_num) (min_le_left 1 x)⟩

/-- C3: `technical_score`, `momentum_score`, `sentiment_score` and
`composite_score` are total functions of their (well-formed, possibly
degenerate) inputs and always return a rational in the closed interval
`[0, 1]` — in particular for a `none`/empty frame, rows with missing
indicator entries, an empty search-result list, and an unavailable GPT
reply. -/
theorem scores_always_bounded :
    (∀ df, 0 ≤ technical_score df ∧ technical_score df ≤ 1) ∧
    (∀ df, 0 ≤ momentum_score df ∧ momentum_score df ≤ 1) ∧
    (∀ gpt_result search_results,
      0 ≤ sentiment_score gpt_result search_results ∧
      sentiment_score gpt_result search_results ≤ 1) ∧
    (∀ technical momentum sentiment risk_adjustment,
      0 ≤ composite_score technical momentum sentiment risk_adjustment ∧
      composite_score technical momentum sentiment risk_adjustment ≤ 1) := by
  refine ⟨fun df => ?_, fun df => ?_, fun g rs => ?_, fun t m s r => ?_⟩
  · unfold technical_score
    dsimp only
    split
    · norm_num
    · split
      · norm_num
      · split
        · norm_num
        · exact clamp01_mem _
  · unfold momentum_score
    dsimp only
    split
    · norm_num
    · split
      · norm_num
      · split
        · exact clamp01_mem _
        · norm_num
  · unfold sentiment_score
    dsimp only
    split
    · norm_num
    · split
      · norm_num
      · split
        · norm_num
        · exact clamp01_mem _
  · unfold composite_score
    dsimp only
    split
    · exact clamp01_mem _
    · exact clamp01_mem _

/-- C4: the composite score is the risk-adjusted clamp of a weighted sum:
weights 0.4/0.3/0.3 when sentiment is meaningfully non-neutral, reweighted
to 0.45/0.35/0.20 in the bearish regime (`technical < 0.5` and
`momentum < 0.4`), and 0.6/0.4 over technical/momentum alone when sentiment
is within 0.01 of neutral. -/
theorem composite_score_formula (technical momentum sentiment risk_adjustment : ℚ)
    (htech : 0 ≤ technical ∧ technical ≤ 1)
    (hmom : 0 ≤ momentum ∧ momentum ≤ 1)
    (hsent : 0 ≤ sentiment ∧ sentiment ≤ 1)
    (hrisk : risk_adjustment = 0.85 ∨ risk_adjustment = 1 ∨ risk_adjustment = 1.15) :
    composite_score technical momentum sentiment risk_adjustment =
      if (0.01 : ℚ) < |sentiment - 0.5| then
        if technical < 0.5 ∧ momentum < 0.4 then
          max 0 (min 1
            ((0.45 * technical + 0.35 * momentum + 0.20 * sentiment) * risk_adjustment))
        else
          max 0 (min 1
            ((0.4 * technical + 0.3 * momentum + 0.3 * sentiment) * risk_adjustment))
      else
        max 0 (min 1 ((0.6 * technical + 0.4 * momentum) * risk_adjustment)) := by
  unfold composite_score
  dsimp only
  split_ifs <;> rfl

/-- Witness for `composite_score_formula` at technical 0.8, momentum 0.6,
sentiment 0.7, aggressive multiplier 1.15. -/
theorem composite_score_formula_witness :
    composite_score 0.8 0.6 0.7 1.15 =
      max 0 (min 1 ((0.4 * (0.8 : ℚ) + 0.3 * 0.6 + 0.3 * 0.7) * 1.15)) := by
  have habs : |(0.7 : ℚ) - 0.5| = 0.2 := by norm_num
  have h := composite_score_formula 0.8 0.6 0.7 1.15 (by norm_num) (by norm_num)
    (by norm_num) (Or.inr (Or.inr rfl))
  rw [h]
  simp only [habs]
  norm_num

/-- C1 counterexample: at composite score 0.50 with aggressive risk
tolerance the signal is BUY, not HOLD — 0.50 meets the aggressive buy
threshold 0.50 inclusively (`composite_score >= buy_threshold`). -/
theorem trading_signal_aggressive_half_is_buy :
    (generate_trading_signal RiskTolerance.aggressive 0.50 (some 0.75)).1 = Signal.BUY ∧
    (generate_trading_signal RiskTolerance.aggressive 0.50 (some 0.75)).1 ≠ Signal.HOLD := by
  unfold generate_trading_signal
  dsimp only [buy_threshold, sell_threshold]
  rw [if_pos (by norm_num : (0.50 : ℚ) ≤ 0.50)]
  exact ⟨rfl, by simp⟩

/-- C1 amended: for composite 0.80, technical 0.75 and moderate risk the
signal is BUY with confidence `min(|0.80 - 0.5| * 2 * 1.2, 1)` (base
confidence boosted by the 1.2 agreement factor, capped at 1); for composite
0.50 and every technical score, conservative and moderate return HOLD,
while aggressive returns BUY because its inclusive buy threshold is 0.50. -/
theorem trading_signal_claimed_cases :
    generate_trading_signal RiskTolerance.moderate 0.80 (some 0.75) =
      (Signal.BUY, min (|(0.80 : ℚ) - 0.5| * 2 * 1.2) 1) ∧
    ∀ t : Option ℚ,
      (generate_trading_signal RiskTolerance.conservative 0.50 t).1 = Signal.HOLD ∧
      (generate_trading_signal RiskTolerance.moderate 0.50 t).1 = Signal.HOLD ∧
      (generate_trading_signal RiskTolerance.aggressive 0.50 t).1 = Signal.BUY := by
  constructor
  · unfold generate_trading_signal
    dsimp only [buy_threshold, sell_threshold]
    rw [if_pos (by norm_num : (0.55 : ℚ) ≤ 0.80),
      if_pos (Or.inl ⟨rfl, by norm_num⟩ :
        (Signal.BUY = Signal.BUY ∧ (0.6 : ℚ) < 0.75) ∨
        (Signal.BUY = Signal.SELL ∧ (0.75 : ℚ) < 0.4) ∨ Signal.BUY = Signal.HOLD)]
  · intro t
    unfold generate_trading_signal
    dsimp only [buy_threshold, sell_threshold]
    refine ⟨?_, ?_, ?_⟩
    · rw [if_neg (by norm_num : ¬ (0.60 : ℚ) ≤ 0.50),
        if_neg (by norm_num : ¬ (0.50 : ℚ) ≤ 0.40)]
    · rw [if_neg (by norm_num : ¬ (0.55 : ℚ) ≤ 0.50),
        if_neg (by norm_num : ¬ (0.50 : ℚ) ≤ 0.45)]
    · rw [if_pos (by norm_num : (0.50 : ℚ) ≤ 0.50)]

/-- C2 counterexample: with seven closes `[1, 1.06, 1.03, 1, 1, 1, 1]` the
code's reference close is the 5th-most-recent one (`iloc[-5]`, index 2,
value 1.03), not the close 5 periods before the latest (index 1, value
1.06); the returned momentum differs from the value the claim predicts. -/
theorem momentum_score_five_periods_cex :
    momentum_score (some
      [{ close := some 1 }, { close := some 1.06 }, { close := some 1.03 },
       { close := some 1 }, { close := some 1 }, { close := some 1 },
       { close := some 1 }]) ≠
      max 0 (min 1 (0.5 + ((1 - 1.06) / 1.06) * 3.33)) := by
  have key : momentum_score (some
      [{ close := some 1 }, { close := some 1.06 }, { close := some 1.03 },
       { close := some 1 }, { close := some 1 }, { close := some 1 },
       { close := some 1 }]) =
      max 0 (min 1 (0.5 + (1 - 1.03) / 1.03 * 3.33)) := rfl
  rw [key]
  norm_num

/-- C2 amended: for a series with at least 2 observations whose relevant
closes are present, `momentum_score` is the percent change between the
latest close and the 5th-most-recent close (4 periods earlier; the earliest
available close when fewer than 5 observations exist), mapped through
`0.5 + pct_change * 3.33` and clamped to `[0, 1]`; with fewer than 2
observations (or no frame) it returns 0.5. -/
theorem momentum_score_spec :
    (∀ (rows : List IndicatorRow) (recent older : ℚ),
      2 ≤ rows.length →
      rows.getLast?.bind IndicatorRow.close = some recent →
      (rows[rows.length - min 5 rows.length]?).bind IndicatorRow.close = some older →
      momentum_score (some rows) =
        max 0 (min 1 (0.5 + (recent - older) / older * 3.33))) ∧
    momentum_score none = 0.5 ∧
    (∀ rows : List IndicatorRow, rows.length < 2 → momentum_score (some rows) = 0.5) := by
  refine ⟨fun rows recent older h2 hr ho => ?_, rfl, fun rows h => ?_⟩
  · unfold momentum_score
    dsimp only
    rw [if_neg (by omega), hr, ho]
  · unfold momentum_score
    dsimp only
    rw [if_pos h]

/-- Witness for `momentum_score_spec` on six rows with closes
`[2, 1, 1, 1, 1, 4]`: the reference close is the one at index 1. -/
theorem momentum_score_spec_witness :
    momentum_score (some
      [{ close := some 2 }, { close := some 1 }, { close := some 1 },
       { close := some 1 }, { close := some 1 }, { close := some 4 }]) =
      max 0 (min 1 (0.5 + ((4 : ℚ) - 1) / 1 * 3.33)) :=
  momentum_score_spec.1 _ 4 1 (by norm_num) rfl rfl

/-! ### Theorems about the indicator library -/

/-- C5: `calculate_moving_average` preserves the input length, leaves the
first `window - 1` entries undefined, and sets every entry from index
`window - 1` on to the arithmetic mean of the trailing window of inputs;
for the series `[100, 102, 105, 103, 106]` with window 5 the entries 0..3
are undefined and entry 4 is 103.2. -/
theorem moving_average_spec :
    (∀ (data : List ℚ) (window : Nat), 0 < window →
      (calculate_moving_average data window).length = data.length ∧
      (∀ i, i + 1 < window → i < data.length →
        (calculate_moving_average data window).getD i none = none) ∧
      (∀ i, window ≤ i + 1 → i < data.length →
        (calculate_moving_average data window).getD i none =
          some ((∑ j ∈ Finset.range window, data.getD (i + 1 - window + j) 0) /
            (window : ℚ)))) ∧
    calculate_moving_average [100, 102, 105, 103, 106] 5 =
      [none, none, none, none, some 103.2] := by
  constructor
  · intro data window h0
    refine ⟨?_, fun i hi hilen => ?_, fun i hwin hilen => ?_⟩
    · unfold calculate_moving_average
      rw [List.length_map, List.length_range]
    · unfold calculate_moving_average
      rw [getD_rangeMap _ _ _ _ hilen, if_neg (by omega)]
    · unfold calculate_moving_average
      rw [getD_rangeMap _ _ _ _ hilen, if_pos hwin,
        windowSlice_sum data window i hwin hilen]
  · have key : calculate_moving_average [100, 102, 105, 103, 106] 5 =
        [none, none, none, none,
          some (((100 : ℚ) + (102 + (105 + (103 + (106 + 0))))) / ((5 : Nat) : ℚ))] := rfl
    rw [key]
    norm_num

/-- Witness for `moving_average_spec` on `[1, 3]` with window 2 at index 1. -/
theorem moving_average_spec_witness :
    (calculate_moving_average [1, 3] 2).getD 1 none =
      some ((∑ j ∈ Finset.range 2, ([1, 3] : List ℚ).getD (1 + 1 - 2 + j) 0) /
        ((2 : Nat) : ℚ)) :=
  (moving_average_spec.1 [1, 3] 2 (by norm_num)).2.2 1 (by norm_num) (by norm_num)

/-- Unfolding of the OBV accumulator one step (the loop body). -/
lemma obvAux_succ (close volume : List ℚ) (i : Nat) :
    obvAux close volume (i + 1) =
      if close.getD i 0 < close.getD (i + 1) 0 then
        obvAux close volume i + volume.getD (i + 1) 0
      else if close.getD (i + 1) 0 < close.getD i 0 then
        obvAux close volume i - volume.getD (i + 1) 0
      else obvAux close volume i := rfl

/-- C7 counterexample: over arbitrary numeric lists the claim fails — with
the non-decreasing closes `[0, 1]` and the (negative) volumes `[0, -1]`,
OBV is `[0, -1]`, which is not monotone non-decreasing. -/
theorem obv_negative_volume_cex :
    ((0 : ℚ) ≤ 1) ∧
    calculate_on_balance_volume [0, 1] [0, -1] = [0, -1] ∧
    ¬ ((calculate_on_balance_volume [0, 1] [0, -1]).getD 0 0 ≤
        (calculate_on_balance_volume [0, 1] [0, -1]).getD 1 0) := by
  have key : calculate_on_balance_volume [0, 1] [0, -1] =
      [obvAux [0, 1] [0, -1] 0, obvAux [0, 1] [0, -1] 1] := rfl
  have s0 : obvAux [0, 1] [0, -1] 0 = 0 := rfl
  have s1 : obvAux [0, 1] [0, -1] 1 = -1 := by
    rw [show obvAux [0, 1] [0, -1] 1 = obvAux [0, 1] [0, -1] (0 + 1) from rfl,
      obvAux_succ, s0,
      show ([0, 1] : List ℚ).getD 0 0 = 0 from rfl,
      show ([0, 1] : List ℚ).getD (0 + 1) 0 = 1 from rfl,
      show ([0, -1] : List ℚ).getD (0 + 1) 0 = -1 from rfl,
      if_pos (by norm_num : (0 : ℚ) < 1)]
    norm_num
  refine ⟨by norm_num, ?_, ?_⟩
  · rw [key, s0, s1]
  · rw [key]
    norm_num [s0, s1]

/-- C7 amended: OBV starts at 0, and for *nonnegative* volumes it is
monotone non-decreasing whenever close is non-decreasing throughout; on
close `[100, 102, 105, 103, 106]` with volume
`[1000, 2000, 3000, 4000, 5000]` the OBV is `[0, 2000, 5000, 1000, 6000]`. -/
theorem obv_monotone_and_example :
    (∀ close volume : List ℚ, close.length = volume.length →
      (∀ v ∈ volume, 0 ≤ v) →
      (∀ i ∈ List.range (close.length - 1), close.getD i 0 ≤ close.getD (i + 1) 0) →
      (calculate_on_balance_volume close volume).length = close.length ∧
      (0 < close.length → (calculate_on_balance_volume close volume).getD 0 0 = 0) ∧
      (∀ i ∈ List.range (close.length - 1),
        (calculate_on_balance_volume close volume).getD i 0 ≤
          (calculate_on_balance_volume close volume).getD (i + 1) 0)) ∧
    calculate_on_balance_volume [100, 102, 105, 103, 106]
      [1000, 2000, 3000, 4000, 5000] = [0, 2000, 5000, 1000, 6000] := by
  constructor
  · intro close volume hlen hvol hmono
    refine ⟨?_, fun h0 => ?_, fun i hi => ?_⟩
    · unfold calculate_on_balance_volume
      rw [List.length_map, List.length_range]
    · unfold calculate_on_balance_volume
      rw [getD_rangeMap _ _ _ _ h0]
      rfl
    · rw [List.mem_range] at hi
      unfold calculate_on_balance_volume
      rw [getD_rangeMap _ _ _ _ (by omega), getD_rangeMap _ _ _ _ (by omega),
        obvAux_succ]
      split_ifs with hup hdown
      · have hv : 0 ≤ volume.getD (i + 1) 0 := hvol _ (getD_mem (by omega) 0)
        linarith
      · exact absurd (hmono i (List.mem_range.mpr hi)) (not_le.mpr hdown)
      · exact le_refl _
  · have key : calculate_on_balance_volume [100, 102, 105, 103, 106]
        [1000, 2000, 3000, 4000, 5000] =
        [obvAux [100, 102, 105, 103, 106] [1000, 2000, 3000, 4000, 5000] 0,
         obvAux [100, 102, 105, 103, 106] [1000, 2000, 3000, 4000, 5000] 1,
         obvAux [100, 102, 105, 103, 106] [1000, 2000, 3000, 4000, 5000] 2,
         obvAux [100, 102, 105, 103, 106] [1000, 2000, 3000, 4000, 5000] 3,
         obvAux [100, 102, 105, 103, 106] [1000, 2000, 3000, 4000, 5000] 4] := rfl
    have s0 : obvAux [100, 102, 105, 103, 106] [1000, 2000, 3000, 4000, 5000] 0 = 0 := rfl
    have s1 : obvAux [100, 102, 105, 103, 106] [1000, 2000, 3000, 4000, 5000] 1 = 2000 := by
      rw [show obvAux [100, 102, 105, 103, 106] [1000, 2000, 3000, 4000, 5000] 1 =
          obvAux [100, 102, 105, 103, 106] [1000, 2000, 3000, 4000, 5000] (0 + 1) from rfl,
        obvAux_succ, s0,
        show ([100, 102, 105, 103, 106] : List ℚ).getD 0 0 = 100 from rfl,
        show ([100, 102, 105, 103, 106] : List ℚ).getD (0 + 1) 0 = 102 from rfl,
        show ([1000, 2000, 3000, 4000, 5000] : List ℚ).getD (0 + 1) 0 = 2000 from rfl,
        if_pos (by norm_num : (100 : ℚ) < 102)]
      norm_num
    have s2 : obvAux [100, 102, 105, 103, 106] [1000, 2000, 3000, 4000, 5000] 2 = 5000 := by
      rw [show obvAux [100, 102, 105, 103, 106] [1000, 2000, 3000, 4000, 5000] 2 =
          obvAux [100, 102, 105, 103, 106] [1000, 2000, 3000, 4000, 5000] (1 + 1) from rfl,
        obvAux_succ, s1,
        show ([100, 102, 105, 103, 106] : List ℚ).getD 1 0 = 102 from rfl,
        show ([100, 102, 105, 103, 106] : List ℚ).getD (1 + 1) 0 = 105 from rfl,
        show ([1000, 2000, 3000, 4000, 5000] : List ℚ).getD (1 + 1) 0 = 3000 from rfl,
        if_pos (by norm_num : (102 : ℚ) < 105)]
      norm_num
    have s3 : obvAux [100, 102, 105, 103, 106] [1000, 2000, 3000, 4000, 5000] 3 = 1000 := by
      rw [show obvAux [100, 102, 105, 103, 106] [1000, 2000, 3000, 4000, 5000] 3 =
          obvAux [100, 102, 105, 103, 106] [1000, 2000, 3000, 4000, 5000] (2 + 1) from rfl,
        obvAux_succ, s2,
        show ([100, 102, 105, 103, 106] : List ℚ).getD 2 0 = 105 from rfl,
        show ([100, 102, 105, 103, 106] : List ℚ).getD (2 + 1) 0 = 103 from rfl,
        show ([1000, 2000, 3000, 4000, 5000] : List ℚ).getD (2 + 1) 0 = 4000 from rfl,
        if_neg (by norm_num : ¬ (105 : ℚ) < 103),
        if_pos (by norm_num : (103 : ℚ) < 105)]
      norm_num
    have s4 : obvAux [100, 102, 105, 103, 106] [1000, 2000, 3000, 4000, 5000] 4 = 6000 := by
      rw [show obvAux [100, 102, 105, 103, 106] [1000, 2000, 3000, 4000, 5000] 4 =
          obvAux [100, 102, 105, 103, 106] [1000, 2000, 3000, 4000, 5000] (3 + 1) from rfl,
        obvAux_succ, s3,
        show ([100, 102, 105, 103, 106] : List ℚ).getD 3 0 = 103 from rfl,
        show ([100, 102, 105, 103, 106] : List ℚ).getD (3 + 1) 0 = 106 from rfl,
        show ([1000, 2000, 3000, 4000, 5000] : List ℚ).getD (3 + 1) 0 = 5000 from rfl,
        if_pos (by norm_num : (103 : ℚ) < 106)]
      norm_num
    rw [key, s0, s1, s2, s3, s4]

/-- Witness for `obv_monotone_and_example` on close `[1, 2]`, volume
`[5, 7]` at the step from index 0 to 1. -/
theorem obv_monotone_witness :
    (calculate_on_balance_volume [1, 2] [5, 7]).getD 0 0 ≤
      (calculate_on_balance_volume [1, 2] [5, 7]).getD 1 0 :=
  (obv_monotone_and_example.1 [1, 2] [5, 7] rfl
    (by intro v hv; simp only [List.mem_cons, List.not_mem_nil, or_false] at hv
        rcases hv with h | h <;> rw [h] <;> norm_num)
    (by intro i hi
        simp only [List.length_cons, List.length_nil, List.mem_range] at hi
        have hz : i = 0 := by omega
        subst hz
        norm_num)).2.2 0 (by simp)

/-- Inversion for pointwise series arithmetic: a defined output entry comes
from defined entries of both inputs. -/
lemma map2Opt_getElem?_some (f : ℚ → ℚ → ℚ) (xs ys : List (Option ℚ)) (i : Nat) (u : ℚ)
    (h : (map2Opt f xs ys)[i]? = some (some u)) :
    ∃ x y, xs[i]? = some (some x) ∧ ys[i]? = some (some y) ∧ u = f x y := by
  unfold map2Opt at h
  rw [List.getElem?_zipWith] at h
  rcases hx : xs[i]? with _ | a <;> rw [hx] at h
  · simp at h
  · rcases hy : ys[i]? with _ | b <;> rw [hy] at h
    · simp at h
    · rcases a with _ | x
      · simp at h
      · rcases b with _ | y
        · simp at h
        · simp only [Option.some.injEq] at h
          exact ⟨x, y, rfl, rfl, h.symm⟩

/-- C8: wherever upper, middle and lower Bollinger bands are all defined,
`upper - middle = middle - lower` exactly: the bands are symmetric around
the middle band, for every data series, window, band width and square-root
function. -/
theorem bollinger_bands_symmetric (sqrtFn : ℚ → ℚ) (data : List ℚ) (window : Nat)
    (num_std_dev : ℚ) (i : Nat) (u m l : ℚ)
    (hu : (calculate_bollinger_bands sqrtFn data window num_std_dev).1[i]? =
      some (some u))
    (hm : (calculate_bollinger_bands sqrtFn data window num_std_dev).2.1[i]? =
      some (some m))
    (hl : (calculate_bollinger_bands sqrtFn data window num_std_dev).2.2[i]? =
      some (some l)) :
    u - m = m - l := by
  unfold calculate_bollinger_bands at hu hm hl
  dsimp only at hu hm hl
  rcases map2Opt_getElem?_some _ _ _ _ _ hu with ⟨m1, s1, hm1, hs1, hu1⟩
  rcases map2Opt_getElem?_some _ _ _ _ _ hl with ⟨m2, s2, hm2, hs2, hl1⟩
  have em1 : m1 = m := by simpa using hm1.symm.trans hm
  have em2 : m2 = m := by simpa using hm2.symm.trans hm
  have es : s1 = s2 := by simpa using hs1.symm.trans hs2
  subst em1 em2 es hu1 hl1
  ring

/-- Witness for `bollinger_bands_symmetric` on `[1, 2, 3]`, window 2, two
standard deviations, at index 1, with the identity as square root. -/
theorem bollinger_bands_symmetric_witness : (5 / 2 : ℚ) - 3 / 2 = 3 / 2 - 1 / 2 :=
  bollinger_bands_symmetric (fun x => x) [1, 2, 3] 2 2 1 (5 / 2) (3 / 2) (1 / 2)
    (by unfold calculate_bollinger_bands map2Opt calculate_moving_average rollingSampleStd
        dsimp only
        rw [List.getElem?_zipWith, getElem?_rangeMap, getElem?_rangeMap]
        norm_num [windowSlice])
    (by unfold calculate_bollinger_bands calculate_moving_average
        dsimp only
        rw [getElem?_rangeMap]
        norm_num [windowSlice])
    (by unfold calculate_bollinger_bands map2Opt calculate_moving_average rollingSampleStd
        dsimp only
        rw [List.getElem?_zipWith, getElem?_rangeMap, getElem?_rangeMap]
        norm_num [windowSlice])

lemma listMin_le (l : List ℚ) : ∀ x ∈ l, listMin l ≤ x := by
  induction l with
  | nil => intro x hx; cases hx
  | cons a t ih =>
    intro x hx
    cases t with
    | nil =>
      rw [List.mem_singleton] at hx
      rw [hx]
      exact le_of_eq rfl
    | cons b t2 =>
      rcases List.mem_cons.mp hx with h | h
      · rw [h]
        calc listMin (a :: b :: t2) = min a (listMin (b :: t2)) := rfl
        _ ≤ a := min_le_left _ _
      · calc listMin (a :: b :: t2) = min a (listMin (b :: t2)) := rfl
        _ ≤ listMin (b :: t2) := min_le_right _ _
        _ ≤ x := ih x h

lemma le_listMax (l : List ℚ) : ∀ x ∈ l, x ≤ listMax l := by
  induction l with
  | nil => intro x hx; cases hx
  | cons a t ih =>
    intro x hx
    cases t with
    | nil =>
      rw [List.mem_singleton] at hx
      rw [hx]
      exact le_of_eq rfl
    | cons b t2 =>
      rcases List.mem_cons.mp hx with h | h
      · rw [h]
        calc a ≤ max a (listMax (b :: t2)) := le_max_left _ _
        _ = listMax (a :: b :: t2) := rfl
      · calc x ≤ listMax (b :: t2) := ih x h
        _ ≤ max a (listMax (b :: t2)) := le_max_right _ _
        _ = listMax (a :: b :: t2) := rfl

/-- Inversion for `rollingMin`: a defined entry is the minimum of its full
trailing window. -/
lemma rollingMin_getD_some (data : List ℚ) (window i : Nat) (v : ℚ)
    (h : (rollingMin data window).getD i none = some v) :
    i < data.length ∧ window ≤ i + 1 ∧ v = listMin (windowSlice data window i) := by
  by_cases hi : i < data.length
  · unfold rollingMin at h
    rw [getD_rangeMap _ _ _ _ hi] at h
    by_cases hw : window ≤ i + 1
    · rw [if_pos hw] at h
      exact ⟨hi, hw, by simpa using h.symm⟩
    · rw [if_neg hw] at h
      cases h
  · unfold rollingMin at h
    rw [getD_len_le] at h
    · cases h
    · rw [List.length_map, List.length_range]
      omega

/-- Inversion for `rollingMax`: a defined entry is the maximum of its full
trailing window. -/
lemma rollingMax_getD_some (data : List ℚ) (window i : Nat) (v : ℚ)
    (h : (rollingMax data window).getD i none = some v) :
    i < data.length ∧ window ≤ i + 1 ∧ v = listMax (windowSlice data window i) := by
  by_cases hi : i < data.length
  · unfold rollingMax at h
    rw [getD_rangeMap _ _ _ _ hi] at h
    by_cases hw : window ≤ i + 1
    · rw [if_pos hw] at h
      exact ⟨hi, hw, by simpa using h.symm⟩
    · rw [if_neg hw] at h
      cases h
  · unfold rollingMax at h
    rw [getD_len_le] at h
    · cases h
    · rw [List.length_map, List.length_range]
      omega

/-- C9: on OHLC data (where each close lies between that bar's low and
high), every defined %K value of `calculate_stochastic_oscillator` lies in
`[0, 100]`; and wherever the rolling highest high equals the rolling lowest
low over the whole window, %K is defined and exactly 0 (no division by
zero is performed). -/
theorem stochastic_percent_k_bounds (high low close : List ℚ)
    (window k_smoothing : Nat)
    (hlh : high.length = close.length) (hll : low.length = close.length)
    (hw : 0 < window)
    (hohlc : ∀ i ∈ List.range close.length,
      low.getD i 0 ≤ close.getD i 0 ∧ close.getD i 0 ≤ high.getD i 0) :
    (∀ (i : Nat) (v : ℚ),
      (calculate_stochastic_oscillator high low close window k_smoothing).1[i]? =
        some (some v) → 0 ≤ v ∧ v ≤ 100) ∧
    (∀ (i : Nat) (hh ll : ℚ), i < close.length →
      (rollingMax high window).getD i none = some hh →
      (rollingMin low window).getD i none = some ll →
      hh = ll →
      (calculate_stochastic_oscillator high low close window k_smoothing).1[i]? =
        some (some 0)) := by
  constructor
  · intro i v hv
    unfold calculate_stochastic_oscillator at hv
    dsimp only at hv
    rw [getElem?_rangeMap] at hv
    by_cases hi : i < close.length
    · rw [if_pos hi] at hv
      simp only [Option.some.injEq] at hv
      rcases hHH : (rollingMax high window).getD i none with _ | hh <;> rw [hHH] at hv
      · simp at hv
      rcases hLL : (rollingMin low window).getD i none with _ | ll <;> rw [hLL] at hv
      · simp at hv
      dsimp only at hv
      obtain ⟨hiH, hwinH, hhval⟩ := rollingMax_getD_some high window i hh hHH
      obtain ⟨hiL, hwinL, llval⟩ := rollingMin_getD_some low window i ll hLL
      obtain ⟨hlc, hch⟩ := hohlc i (List.mem_range.mpr hi)
      have hle1 : ll ≤ close.getD i 0 := by
        calc ll = listMin (windowSlice low window i) := llval
        _ ≤ low.getD i 0 := listMin_le _ _ (self_mem_windowSlice low window i hw hwinL hiL)
        _ ≤ close.getD i 0 := hlc
      have hle2 : close.getD i 0 ≤ hh := by
        calc close.getD i 0 ≤ high.getD i 0 := hch
        _ ≤ listMax (windowSlice high window i) :=
          le_listMax _ _ (self_mem_windowSlice high window i hw hwinH hiH)
        _ = hh := hhval.symm
      split_ifs at hv with hzero
      · simp only [Option.some.injEq] at hv
        rw [← hv]
        norm_num
      · simp only [Option.some.injEq] at hv
        have hpos : 0 < hh - ll := by
          rcases lt_or_eq_of_le (le_trans hle1 hle2) with h | h
          · linarith
          · exact absurd (by rw [h]; ring) hzero
        rw [← hv]
        constructor
        · apply div_nonneg _ (le_of_lt hpos)
          linarith
        · rw [div_le_iff₀ hpos]
          linarith
    · rw [if_neg hi] at hv
      cases hv
  · intro i hh ll hi hHH hLL heq
    unfold calculate_stochastic_oscillator
    dsimp only
    rw [getElem?_rangeMap, if_pos hi, hHH, hLL]
    dsimp only
    rw [if_pos (by rw [heq]; ring : hh - ll = 0)]

/-- Witness for `stochastic_percent_k_bounds` on the flat OHLC series
`[1, 1]` with window 1 at index 0, where the rolling range is zero. -/
theorem stochastic_percent_k_bounds_witness :
    (calculate_stochastic_oscillator [1, 1] [1, 1] [1, 1] 1 3).1[0]? =
      some (some 0) :=
  (stochastic_percent_k_bounds [1, 1] [1, 1] [1, 1] 1 3 rfl rfl (by norm_num)
    (by intro i hi
        simp only [List.length_cons, List.length_nil, List.mem_range] at hi
        interval_cases i <;> norm_num)).2
    0 1 1 (by norm_num) rfl rfl rfl

/-! ### Helper lemmas for the RSI development -/

lemma getD_map_option (g : Option ℚ → Option ℚ) (l : List (Option ℚ)) (j : Nat)
    (hj : j < l.length) :
    (l.map g).getD j none = g (l.getD j none) := by
  rw [List.getD_eq_getElem?_getD, List.getElem?_map, List.getD_eq_getElem?_getD,
    List.getElem?_eq_getElem hj]
  rfl

lemma seriesDiff_length (data : List ℚ) : (seriesDiff data).length = data.length := by
  unfold seriesDiff
  rw [List.length_map, List.length_range]

lemma seriesDiff_getD_succ (data : List ℚ) (j : Nat) (hj : j + 1 < data.length) :
    (seriesDiff data).getD (j + 1) none =
      some (data.getD (j + 1) 0 - data.getD j 0) := by
  unfold seriesDiff
  rw [getD_rangeMap _ _ _ _ hj]

lemma seriesDiff_head (data : List ℚ) (h0 : 0 < data.length) :
    (seriesDiff data)[0]? = some none := by
  unfold seriesDiff
  rw [getElem?_rangeMap, if_pos h0]

lemma rollingMeanOpt_length (xs : List (Option ℚ)) (window : Nat) :
    (rollingMeanOpt xs window).length = xs.length := by
  unfold rollingMeanOpt
  rw [List.length_map, List.length_range]

/-- Inversion for `rollingMeanOpt`: a defined entry is the mean of a full,
fully-defined trailing window. -/
lemma rollingMeanOpt_getD_some (xs : List (Option ℚ)) (window i : Nat) (g : ℚ)
    (h : (rollingMeanOpt xs window).getD i none = some g) :
    i < xs.length ∧ window ≤ i + 1 ∧
      ((xs.drop (i + 1 - window)).take window).all Option.isSome = true ∧
      g = ((((xs.drop (i + 1 - window)).take window).filterMap id).sum /
        (window : ℚ)) := by
  by_cases hi : i < xs.length
  · unfold rollingMeanOpt at h
    rw [getD_rangeMap _ _ _ _ hi] at h
    dsimp only at h
    by_cases hw : window ≤ i + 1
    · rw [if_pos hw] at h
      by_cases hall : ((xs.drop (i + 1 - window)).take window).all Option.isSome = true
      · rw [if_pos hall] at h
        exact ⟨hi, hw, hall, by simpa using h.symm⟩
      · rw [if_neg hall] at h
        cases h
    · rw [if_neg hw] at h
      cases h
  · rw [getD_len_le _ _ _ (by rw [rollingMeanOpt_length]; omega)] at h
    cases h

/-- A rolling mean of a series whose defined entries are all nonnegative is
nonnegative. -/
lemma rollingMeanOpt_nonneg (xs : List (Option ℚ)) (window i : Nat) (g : ℚ)
    (hnn : ∀ x : ℚ, some x ∈ xs → 0 ≤ x)
    (h : (rollingMeanOpt xs window).getD i none = some g) : 0 ≤ g := by
  obtain ⟨hi, hw, hall, hval⟩ := rollingMeanOpt_getD_some xs window i g h
  rw [hval]
  apply div_nonneg _ (Nat.cast_nonneg window)
  apply List.sum_nonneg
  intro x hx
  rcases List.mem_filterMap.mp hx with ⟨o, ho, hoe⟩
  have h1 : o ∈ xs := (List.drop_subset _ _) ((List.take_subset _ _) ho)
  have h2 : some x ∈ xs := by rwa [show o = some x from hoe] at h1
  exact hnn x h2

/-- A rolling mean of a series whose entries are all `none` or `some 0` is
zero wherever defined. -/
lemma rollingMeanOpt_zero (xs : List (Option ℚ)) (window i : Nat) (g : ℚ)
    (h0 : ∀ o ∈ xs, o = none ∨ o = some 0)
    (h : (rollingMeanOpt xs window).getD i none = some g) : g = 0 := by
  obtain ⟨hi, hw, hall, hval⟩ := rollingMeanOpt_getD_some xs window i g h
  rw [hval]
  have hsum : (((xs.drop (i + 1 - window)).take window).filterMap id).sum = 0 := by
    apply List.sum_eq_zero
    intro x hx
    rcases List.mem_filterMap.mp hx with ⟨o, ho, hoe⟩
    have h1 : o ∈ xs := (List.drop_subset _ _) ((List.take_subset _ _) ho)
    rcases h0 o h1 with rfl | rfl
    · cases hoe
    · simpa using hoe.symm
  rw [hsum, zero_div]

/-- The rolling mean is undefined at every position `i < window` whenever
the head of the series is undefined (the warm-up region of a diffed
series). -/
lemma rollingMeanOpt_getD_none_of_head_none (xs : List (Option ℚ)) (window i : Nat)
    (hx0 : xs[0]? = some none) (hi : i < window) :
    (rollingMeanOpt xs window).getD i none = none := by
  by_cases hilen : i < xs.length
  · unfold rollingMeanOpt
    rw [getD_rangeMap _ _ _ _ hilen]
    dsimp only
    by_cases hw : window ≤ i + 1
    · rw [if_pos hw]
      have hmem : (none : Option ℚ) ∈ (xs.drop (i + 1 - window)).take window := by
        rw [show i + 1 - window = 0 by omega]
        apply List.mem_iff_getElem?.mpr
        refine ⟨0, ?_⟩
        rw [List.getElem?_take, if_pos (by omega), List.getElem?_drop]
        simpa using hx0
      rw [if_neg fun hall => by simpa using (List.all_eq_true.mp hall) none hmem]
    · rw [if_neg hw]
  · exact getD_len_le _ _ _ (by rw [rollingMeanOpt_length]; omega)

/-- The rolling mean is defined at `i` whenever the window is full and the
series is defined from index 1 on (as a diffed series is). -/
lemma rollingMeanOpt_getD_isSome (xs : List (Option ℚ)) (window i : Nat)
    (hw : 0 < window) (hwi : window ≤ i) (hi : i < xs.length)
    (hdef : ∀ j, 1 ≤ j → j < xs.length → (xs.getD j none).isSome = true) :
    ((rollingMeanOpt xs window).getD i none).isSome = true := by
  unfold rollingMeanOpt
  rw [getD_rangeMap _ _ _ _ hi]
  dsimp only
  rw [if_pos (by omega)]
  have hall : ((xs.drop (i + 1 - window)).take window).all Option.isSome = true := by
    rw [List.all_eq_true]
    intro o ho
    rcases List.mem_iff_getElem?.mp ho with ⟨j, hj⟩
    rw [List.getElem?_take] at hj
    by_cases hjw : j < window
    · rw [if_pos hjw, List.getElem?_drop] at hj
      obtain ⟨hjlen, hval⟩ := List.getElem?_eq_some.mp hj
      have hD : xs.getD (i + 1 - window + j) none = o := by
        rw [List.getD_eq_getElem?_getD, hj]
        rfl
      rw [← hD]
      exact hdef (i + 1 - window + j) (by omega) hjlen
    · rw [if_neg hjw] at hj
      cases hj
  rw [if_pos hall]
  rfl

lemma gainsOf_entry_nonneg (delta : List (Option ℚ)) :
    ∀ x : ℚ, some x ∈ gainsOf delta → 0 ≤ x := by
  intro x hx
  unfold gainsOf at hx
  rcases List.mem_map.mp hx with ⟨o, _, ho⟩
  rcases o with _ | d
  · simp at ho
  · rw [Option.map_some', Option.some.injEq] at ho
    rw [← ho]
    exact le_max_right d 0

lemma lossesOf_entry_nonneg (delta : List (Option ℚ)) :
    ∀ x : ℚ, some x ∈ lossesOf delta → 0 ≤ x := by
  intro x hx
  unfold lossesOf at hx
  rcases List.mem_map.mp hx with ⟨o, _, ho⟩
  rcases o with _ | d
  · simp at ho
  · rw [Option.map_some', Option.some.injEq] at ho
    rw [← ho]
    exact le_max_right (-d) 0

lemma getD_replicate (c : ℚ) (n k : Nat) (hk : k < n) :
    (List.replicate n c).getD k 0 = c := by
  rw [List.getD_eq_getElem?_getD, List.getElem?_replicate, if_pos hk]
  rfl

/-- The diff of a constant series has only `none` and `some 0` entries. -/
lemma seriesDiff_replicate (c : ℚ) (n : Nat) :
    ∀ o ∈ seriesDiff (List.replicate n c), o = none ∨ o = some 0 := by
  intro o ho
  unfold seriesDiff at ho
  rcases List.mem_map.mp ho with ⟨i, hi, hio⟩
  rw [List.mem_range, List.length_replicate] at hi
  cases i with
  | zero =>
    left
    exact hio.symm
  | succ j =>
    right
    rw [← hio]
    dsimp only
    rw [getD_replicate c n (j + 1) (by omega), getD_replicate c n j (by omega)]
    norm_num

/-- Mapping an `Option.map f` with `f 0 = 0` preserves none-or-zero
entries. -/
lemma entries_none_or_zero_map (f : ℚ → ℚ) (hf : f 0 = 0) (l : List (Option ℚ))
    (h0 : ∀ o ∈ l, o = none ∨ o = some 0) :
    ∀ o ∈ l.map (Option.map f), o = none ∨ o = some 0 := by
  intro o ho
  rcases List.mem_map.mp ho with ⟨p, hp, hpo⟩
  rcases h0 p hp with rfl | rfl
  · left
    rw [← hpo]
    rfl
  · right
    rw [← hpo, Option.map_some', hf]

lemma calculate_rsi_length (data : List ℚ) (window : Nat)
    (hlen : window ≤ data.length) :
    (calculate_rsi data window).length = data.length := by
  unfold calculate_rsi
  rw [if_neg (by omega)]
  dsimp only
  rw [List.length_map, List.length_range]

/-- Unfolding of a `calculate_rsi` entry in range. -/
lemma calculate_rsi_getElem? (data : List ℚ) (window i : Nat)
    (hlen : window ≤ data.length) (hi : i < data.length) :
    (calculate_rsi data window)[i]? =
      some (match (rollingMeanOpt (gainsOf (seriesDiff data)) window).getD i none,
                  (rollingMeanOpt (lossesOf (seriesDiff data)) window).getD i none with
            | some g, some l =>
              if l = 0 ∧ 0 < g then some 100
              else if g = 0 ∧ l = 0 then some 50
              else some (100 - 100 / (1 + g / l))
            | _, _ => none) := by
  unfold calculate_rsi
  rw [if_neg (by omega)]
  dsimp only
  rw [getElem?_rangeMap, if_pos hi]

/-- C6: every defined RSI value lies in `[0, 100]`; a constant series
yields exactly 50 at every defined position; a zero trailing average loss
with positive average gain yields exactly 100; and an input shorter than
the window yields the empty list. -/
theorem rsi_bounds_flat_noloss_short :
    (∀ (data : List ℚ) (window i : Nat) (v : ℚ), 0 < window →
      (calculate_rsi data window)[i]? = some (some v) → 0 ≤ v ∧ v ≤ 100) ∧
    (∀ (c : ℚ) (n window i : Nat) (v : ℚ), 0 < window →
      (calculate_rsi (List.replicate n c) window)[i]? = some (some v) → v = 50) ∧
    (∀ (data : List ℚ) (window i : Nat) (g : ℚ), window ≤ data.length →
      i < data.length →
      (rollingMeanOpt (lossesOf (seriesDiff data)) window).getD i none = some 0 →
      (rollingMeanOpt (gainsOf (seriesDiff data)) window).getD i none = some g →
      0 < g →
      (calculate_rsi data window)[i]? = some (some 100)) ∧
    (∀ (data : List ℚ) (window : Nat), data.length < window →
      calculate_rsi data window = []) := by
  refine ⟨?_, ?_, ?_, fun data window h => by unfold calculate_rsi; rw [if_pos h]⟩
  · intro data window i v hw hv
    by_cases hlw : data.length < window
    · rw [show calculate_rsi data window = [] from by
        unfold calculate_rsi; rw [if_pos hlw]] at hv
      simp at hv
    push_neg at hlw
    by_cases hi : i < data.length
    · rw [calculate_rsi_getElem? data window i hlw hi] at hv
      simp only [Option.some.injEq] at hv
      rcases hG : (rollingMeanOpt (gainsOf (seriesDiff data)) window).getD i none
        with _ | g <;> rw [hG] at hv
      · simp at hv
      rcases hL : (rollingMeanOpt (lossesOf (seriesDiff data)) window).getD i none
        with _ | l <;> rw [hL] at hv
      · simp at hv
      dsimp only at hv
      have hg0 : 0 ≤ g :=
        rollingMeanOpt_nonneg _ window i g (gainsOf_entry_nonneg _) hG
      have hl0 : 0 ≤ l :=
        rollingMeanOpt_nonneg _ window i l (lossesOf_entry_nonneg _) hL
      split_ifs at hv with h1 h2
      · simp only [Option.some.injEq] at hv
        rw [← hv]
        norm_num
      · simp only [Option.some.injEq] at hv
        rw [← hv]
        norm_num
      · simp only [Option.some.injEq] at hv
        have hlpos : 0 < l := by
          rcases lt_or_eq_of_le hl0 with h | h
          · exact h
          · exfalso
            rcases lt_or_eq_of_le hg0 with hg | hg
            · exact h1 ⟨h.symm, hg⟩
            · exact h2 ⟨hg.symm, h.symm⟩
        have hq : 0 ≤ g / l := div_nonneg hg0 (le_of_lt hlpos)
        have hpos : (0 : ℚ) < 1 + g / l := by linarith
        have hub : 100 / (1 + g / l) ≤ 100 := by
          rw [div_le_iff₀ hpos]
          nlinarith
        have hlb : 0 < 100 / (1 + g / l) := by positivity
        rw [← hv]
        constructor <;> linarith
    · rw [List.getElem?_eq_none
        (by rw [calculate_rsi_length data window hlw]; omega)] at hv
      cases hv
  · intro c n window i v hw hv
    by_cases hlw : (List.replicate n c).length < window
    · rw [show calculate_rsi (List.replicate n c) window = [] from by
        unfold calculate_rsi; rw [if_pos hlw]] at hv
      simp at hv
    push_neg at hlw
    by_cases hi : i < (List.replicate n c).length
    · rw [calculate_rsi_getElem? _ window i hlw hi] at hv
      simp only [Option.some.injEq] at hv
      rcases hG : (rollingMeanOpt (gainsOf (seriesDiff (List.replicate n c))) window).getD
        i none with _ | g <;> rw [hG] at hv
      · simp at hv
      rcases hL : (rollingMeanOpt (lossesOf (seriesDiff (List.replicate n c))) window).getD
        i none with _ | l <;> rw [hL] at hv
      · simp at hv
      have hg : g = 0 := rollingMeanOpt_zero _ window i g
        (entries_none_or_zero_map _ (by norm_num) _ (seriesDiff_replicate c n)) hG
      have hl : l = 0 := rollingMeanOpt_zero _ window i l
        (entries_none_or_zero_map _ (by norm_num) _ (seriesDiff_replicate c n)) hL
      subst hg hl
      dsimp only at hv
      rw [if_neg (by norm_num), if_pos ⟨rfl, rfl⟩] at hv
      simpa using hv.symm
    · rw [List.getElem?_eq_none
        (by rw [calculate_rsi_length _ window hlw]; omega)] at hv
      cases hv
  · intro data window i g hlen hi hL hG hgpos
    rw [calculate_rsi_getElem? data window i hlen hi, hG, hL]
    dsimp only
    rw [if_pos ⟨rfl, hgpos⟩]

/-- Witness for `rsi_bounds_flat_noloss_short`: a one-element series with
the default window 14 yields the empty list. -/
theorem rsi_bounds_flat_noloss_short_witness : calculate_rsi [1] 14 = [] :=
  rsi_bounds_flat_noloss_short.2.2.2 [1] 14 (by norm_num)

/-- C10: for an input at least as long as the window, `calculate_rsi`
preserves the length, entries 0 through `window - 1` are all undefined
(the diff consumes the first observation), the first defined value appears
at index `window` when it exists, and an input of length exactly `window`
has no defined entry at all. -/
theorem rsi_warmup_undefined (data : List ℚ) (window : Nat)
    (h0 : 0 < window) (hlen : window ≤ data.length) :
    (calculate_rsi data window).length = data.length ∧
    (∀ i, i < window → (calculate_rsi data window).getD i none = none) ∧
    (window < data.length →
      ((calculate_rsi data window).getD window none).isSome = true) ∧
    (data.length = window →
      ∀ i, (calculate_rsi data window).getD i none = none) := by
  have hgains0 : (gainsOf (seriesDiff data))[0]? = some none := by
    unfold gainsOf
    rw [List.getElem?_map, seriesDiff_head data (by omega)]
    rfl
  have hglen : (gainsOf (seriesDiff data)).length = data.length := by
    unfold gainsOf
    rw [List.length_map, seriesDiff_length]
  have hllen : (lossesOf (seriesDiff data)).length = data.length := by
    unfold lossesOf
    rw [List.length_map, seriesDiff_length]
  have hwarm : ∀ i, i < window → (calculate_rsi data window).getD i none = none := by
    intro i hi
    have hid : i < data.length := by omega
    rw [List.getD_eq_getElem?_getD, calculate_rsi_getElem? data window i hlen hid,
      rollingMeanOpt_getD_none_of_head_none _ window i hgains0 hi]
    rfl
  refine ⟨calculate_rsi_length data window hlen, hwarm, fun hwl => ?_, fun heq i => ?_⟩
  · have hgdefs : ∀ j, 1 ≤ j → j < (gainsOf (seriesDiff data)).length →
        ((gainsOf (seriesDiff data)).getD j none).isSome = true := by
      intro j hj1 hjl
      rw [hglen] at hjl
      unfold gainsOf
      rw [getD_map_option _ _ j (by rw [seriesDiff_length]; omega)]
      obtain ⟨k, rfl⟩ : ∃ k, j = k + 1 := ⟨j - 1, by omega⟩
      rw [seriesDiff_getD_succ data k hjl]
      rfl
    have hldefs : ∀ j, 1 ≤ j → j < (lossesOf (seriesDiff data)).length →
        ((lossesOf (seriesDiff data)).getD j none).isSome = true := by
      intro j hj1 hjl
      rw [hllen] at hjl
      unfold lossesOf
      rw [getD_map_option _ _ j (by rw [seriesDiff_length]; omega)]
      obtain ⟨k, rfl⟩ : ∃ k, j = k + 1 := ⟨j - 1, by omega⟩
      rw [seriesDiff_getD_succ data k hjl]
      rfl
    obtain ⟨g, hG⟩ := Option.isSome_iff_exists.mp
      (rollingMeanOpt_getD_isSome _ window window h0 (le_refl _)
        (by rw [hglen]; omega) hgdefs)
    obtain ⟨l, hL⟩ := Option.isSome_iff_exists.mp
      (rollingMeanOpt_getD_isSome _ window window h0 (le_refl _)
        (by rw [hllen]; omega) hldefs)
    rw [List.getD_eq_getElem?_getD,
      calculate_rsi_getElem? data window window hlen hwl, hG, hL]
    dsimp only
    split_ifs <;> rfl
  · by_cases hi : i < window
    · exact hwarm i hi
    · exact getD_len_le _ _ _
        (by rw [calculate_rsi_length data window hlen]; omega)

/-- Witness for `rsi_warmup_undefined` on `[1, 2, 3]` with window 2 at
index 1 (inside the undefined warm-up region). -/
theorem rsi_warmup_undefined_witness :
    (calculate_rsi [1, 2, 3] 2).getD 1 none = none :=
  (rsi_warmup_undefined [1, 2, 3] 2 (by norm_num) (by norm_num)).2.1 1 (by norm_num)

end AgenticLab
